import Mathlib

/-!
Verification of the chromium-bidi mapper core against its specification.

The development shallowly embeds the relevant TypeScript sources:
* `WindowBidiTransport` envelope parsing and error responses
  (src/bidiTab/bidiTab.ts);
* `Realm` serialization, handle bookkeeping and `disown`
  (the realm source file);
* `BrowsingContextProcessor` target attach/detach handling, input tick
  decomposition, `releaseActions` and `browsingContext.close`
  (src/bidiMapper/domains/context/browsingContextProcessor.ts).

JSON values are modelled by an inductive `Json`; JavaScript objects are
ordered association lists, matching JS object key insertion order.
-/

/-- A JSON value.  JS numbers are modelled by `Rat` (integers and the
non-integral numbers relevant to envelope validation are representable). -/
inductive Json where
  | null : Json
  | bool (b : Bool) : Json
  | num (q : Rat) : Json
  | str (s : String) : Json
  | arr (elems : List Json) : Json
  | obj (fields : List (String × Json)) : Json
deriving Repr

/-- First value bound to key `k`, i.e. JS property read `o[k]` (with `none`
standing for JS `undefined`). -/
def lookupKey {α : Type} : List (String × α) → String → Option α
  | [], _ => none
  | p :: t, k => if p.1 = k then some p.2 else lookupKey t k

/-- JS key-presence test `k in o`. -/
def hasKey {α : Type} (l : List (String × α)) (k : String) : Bool :=
  (lookupKey l k).isSome

/-- JS property write `o[k] = v`: updates the entry in place when the key is
present (preserving its position), appends it otherwise. -/
def setKey {α : Type} : List (String × α) → String → α → List (String × α)
  | [], k, v => [(k, v)]
  | p :: t, k, v => if p.1 = k then (k, v) :: t else p :: setKey t k v

/-- JS property delete `delete o[k]`. -/
def delKey {α : Type} : List (String × α) → String → List (String × α)
  | [], _ => []
  | p :: t, k => if p.1 = k then delKey t k else p :: delKey t k

theorem lookupKey_setKey_self {α : Type} (l : List (String × α)) (k : String)
    (v : α) : lookupKey (setKey l k v) k = some v := by
  induction l with
  | nil => simp [setKey, lookupKey]
  | cons p t ih =>
      by_cases h : p.1 = k
      · simp [setKey, lookupKey, h]
      · simp [setKey, lookupKey, h, ih]

theorem lookupKey_setKey_ne {α : Type} (l : List (String × α)) (k k' : String)
    (v : α) (h : k' ≠ k) : lookupKey (setKey l k v) k' = lookupKey l k' := by
  induction l with
  | nil => simp [setKey, lookupKey, Ne.symm h]
  | cons p t ih =>
      by_cases hp : p.1 = k
      · subst hp
        simp [setKey, lookupKey, Ne.symm h]
      · by_cases hq : p.1 = k' <;> simp [setKey, lookupKey, hp, hq, ih, h, Ne.symm h]

theorem lookupKey_delKey_self {α : Type} (l : List (String × α)) (k : String) :
    lookupKey (delKey l k) k = none := by
  induction l with
  | nil => simp [delKey, lookupKey]
  | cons p t ih =>
      by_cases h : p.1 = k <;> simp [delKey, lookupKey, h, ih]

theorem lookupKey_delKey_ne {α : Type} (l : List (String × α)) (k k' : String)
    (h : k' ≠ k) : lookupKey (delKey l k) k' = lookupKey l k' := by
  induction l with
  | nil => simp [delKey]
  | cons p t ih =>
      by_cases hp : p.1 = k
      · have hq : p.1 ≠ k' := fun hc => h (hc ▸ hp)
        simp [delKey, lookupKey, hp, hq, ih, h, Ne.symm h]
      · by_cases hq : p.1 = k' <;> simp [delKey, lookupKey, hp, hq, ih, h, Ne.symm h]

/-! ## WindowBidiTransport (src/bidiTab/bidiTab.ts)

An inbound wire payload is modelled as `Option Json`: `none` stands for a
string `JSON.parse` rejects, `some j` for a string parsing to `j`.  The
transport re-parses the same string in `#getErrorResponse`, which the model
reflects by passing the same `Option Json` again. -/

/-- `WindowBidiTransport.#getJsonType`, extended to `undefined` (the JS
`typeof` result for a missing property). -/
def getJsonType : Option Json → String
  | none => "undefined"
  | some .null => "null"
  | some (.arr _) => "array"
  | some (.obj _) => "object"
  | some (.num _) => "number"
  | some (.str _) => "string"
  | some (.bool _) => "boolean"

/-- The validated envelope returned by `#parseBidiMessage`. -/
structure RawCommandRequest where
  id : Rat
  method : String
  params : Json
  channel : Option String
deriving Repr

/-- `WindowBidiTransport.#parseBidiMessage`: validates the outer envelope,
returning the error message thrown on failure. -/
def parseBidiMessage : Option Json → Except String RawCommandRequest
  | none => .error "Cannot parse data as JSON"
  | some (.obj fields) =>
      let idVal := lookupKey fields "id"
      match idVal with
      | some (.num q) =>
          if q.den ≠ 1 ∨ q < 0 then
            .error ("Expected unsigned integer but got " ++ getJsonType idVal)
          else
            match lookupKey fields "method" with
            | some (.str m) =>
                match lookupKey fields "params" with
                | some (.obj pfields) =>
                    match lookupKey fields "channel" with
                    | none => .ok ⟨q, m, .obj pfields, none⟩
                    | some (.str c) =>
                        -- Empty string channel is considered as no channel.
                        .ok ⟨q, m, .obj pfields, if c = "" then none else some c⟩
                    | some other =>
                        .error ("Expected string channel but got "
                          ++ getJsonType (some other))
                | p => .error ("Expected object params but got " ++ getJsonType p)
            | mo => .error ("Expected string method but got " ++ getJsonType mo)
      | _ => .error ("Expected unsigned integer but got " ++ getJsonType idVal)
  | some other => .error ("Expected JSON object but got " ++ getJsonType (some other))

/-- An outgoing error message: `id` is dropped from the serialized JSON when
`undefined` (`JSON.stringify` omits `undefined` properties). -/
structure ErrorResponse where
  id : Option Json
  error : String
  message : String
deriving Repr

/-- `WindowBidiTransport.#getErrorResponse`: re-parses the payload and lifts
its `id` member into the error response regardless of the member's type. -/
def getErrorResponse (input : Option Json) (errorCode errorMessage : String) :
    ErrorResponse :=
  let messageId : Option Json :=
    match input with
    | some (.obj fields) => if hasKey fields "id" then lookupKey fields "id" else none
    | _ => none
  ⟨messageId, errorCode, errorMessage⟩

/-- Outcome of `window.onBidiMessage` for one inbound payload. -/
inductive TransportOutcome where
  | delivered (msg : RawCommandRequest)
  | errorSent (resp : ErrorResponse)
deriving Repr

/-- The `window.onBidiMessage` handler installed by `WindowBidiTransport`:
parse the envelope, otherwise answer with an `invalid argument` error built
by `#getErrorResponse` from the same payload. -/
def windowOnBidiMessage (input : Option Json) : TransportOutcome :=
  match parseBidiMessage input with
  | .ok m => .delivered m
  | .error e => .errorSent (getErrorResponse input "invalid argument" e)

example :
    windowOnBidiMessage
      (some (.obj [("id", .num 1), ("method", .str "session.new"),
        ("params", .obj [])])) =
      .delivered ⟨1, "session.new", .obj [], none⟩ := rfl

example :
    windowOnBidiMessage (some (.obj [("id", .str "foo")])) =
      .errorSent ⟨some (.str "foo"), "invalid argument",
        "Expected unsigned integer but got string"⟩ := rfl

theorem lookupKey_of_hasKey_ite {α : Type} (l : List (String × α)) (k : String) :
    (if hasKey l k then lookupKey l k else none) = lookupKey l k := by
  by_cases h : hasKey l k
  · simp [h]
  · simp only [h, if_false]
    rw [hasKey, Option.isSome_iff_exists] at h
    push_neg at h
    cases hv : lookupKey l k with
    | none => rfl
    | some v => exact absurd hv (h v)

/-- Claim C1 as stated, at one inbound payload: every envelope-validation
failure is answered with `invalid argument`, and the response carries an `id`
only when the malformed payload held a well-formed unsigned-integer `id`. -/
def c1ClaimAt (input : Option Json) : Prop :=
  ∀ r, windowOnBidiMessage input = .errorSent r →
    r.error = "invalid argument" ∧
    (r.id ≠ none → ∃ q : Rat, q.den = 1 ∧ 0 ≤ q ∧
      ∃ fields, input = some (.obj fields) ∧ lookupKey fields "id" = some (.num q))

/-- C1 counterexample: the payload `{"id": "foo"}` fails envelope validation
(`id` is a string), yet the transport's error response still carries
`id = "foo"`, recovered by `#getErrorResponse` regardless of its type. -/
theorem c1_counterexample : ¬ c1ClaimAt (some (.obj [("id", .str "foo")])) := by
  intro h
  have h2 := h ⟨some (.str "foo"), "invalid argument",
    "Expected unsigned integer but got string"⟩ rfl
  obtain ⟨-, h3⟩ := h2
  obtain ⟨q, -, -, fields, hf, hl⟩ := h3 (by simp)
  obtain rfl : fields = [("id", .str "foo")] := by
    injection hf with hf'
    injection hf' with hf''
    exact hf''.symm
  simp [lookupKey] at hl

/-- C1 (amended): every envelope-validation failure is answered with a single
error response whose code is `invalid argument`; the response's `id` equals
the `id` member of the malformed payload whenever that payload parses to a
JSON object with an `id` member — regardless of the member's type — and is
omitted otherwise. -/
theorem c1_invalid_envelope_response (input : Option Json) (r : ErrorResponse)
    (h : windowOnBidiMessage input = .errorSent r) :
    r.error = "invalid argument" ∧
    r.id = (match input with
            | some (Json.obj fields) => lookupKey fields "id"
            | _ => none) := by
  unfold windowOnBidiMessage at h
  cases hp : parseBidiMessage input with
  | ok m => rw [hp] at h; cases h
  | error e =>
      rw [hp] at h
      cases h
      refine ⟨rfl, ?_⟩
      match input with
      | none => rfl
      | some .null => rfl
      | some (.bool b) => rfl
      | some (.num q) => rfl
      | some (.str s) => rfl
      | some (.arr es) => rfl
      | some (.obj fields) =>
          simp only [getErrorResponse]
          exact lookupKey_of_hasKey_ite fields "id"

/-- Witness for C1's amended theorem at the payload `{"id": "foo"}`. -/
theorem c1_witness :
    windowOnBidiMessage (some (.obj [("id", .str "foo")])) =
      .errorSent ⟨some (.str "foo"), "invalid argument",
        "Expected unsigned integer but got string"⟩ ∧
    ((⟨some (.str "foo"), "invalid argument",
        "Expected unsigned integer but got string"⟩ : ErrorResponse).error =
          "invalid argument" ∧
      (⟨some (.str "foo"), "invalid argument",
        "Expected unsigned integer but got string"⟩ : ErrorResponse).id =
        (match some (Json.obj [("id", Json.str "foo")]) with
          | some (Json.obj fields) => lookupKey fields "id"
          | _ => none)) :=
  ⟨rfl, c1_invalid_envelope_response (some (.obj [("id", .str "foo")])) _ rfl⟩

/-! ## Realm serialization (`Realm.deepSerializedToBiDi`)

CDP deep-serialized values are `Json` values.  The source mutates the input
object in place; the embedding rebuilds the object with `setKey`/`delKey`,
which agrees with the source on JSON-derived objects (unique keys). -/

/-- JS template-literal coercion of a property value, as the source applies it
to `weakLocalObjectReference` and `backendNodeId` (always numbers in CDP
payloads; the composite cases cannot occur there and are approximated). -/
def jsTemplateString : Json → String
  | .null => "null"
  | .bool b => if b then "true" else "false"
  | .num q => if q.den = 1 then toString q.num else toString q
  | .str s => s
  | .arr _ => ""
  | .obj _ => "[object Object]"

/-- Modelled from the spec: `SHARED_ID_DIVIDER` is exported by
`scriptEvaluator.js`, which is not among the sources; the spec fixes it as a
stable four-character divider string starting with an underscore, used
uniformly across the system.  No claim depends on its exact value. -/
def SHARED_ID_DIVIDER : String := "_el_"

/-- First step of `Realm.deepSerializedToBiDi`: when the value owns a
`weakLocalObjectReference` property, its stringified value is stored under
`internalId` and the property is deleted. -/
def renameWeakRef (fields : List (String × Json)) : List (String × Json) :=
  match lookupKey fields "weakLocalObjectReference" with
  | some w =>
      delKey (setKey fields "internalId" (.str (jsTemplateString w)))
        "weakLocalObjectReference"
  | none => fields

/-- The `type` property when it is a string (`===` against a string literal
can only succeed on a string). -/
def typeTag (fields : List (String × Json)) : Option String :=
  match lookupKey fields "type" with
  | some (.str s) => some s
  | _ => none

theorem sizeOf_lookupKey_lt {l : List (String × Json)} {k : String} {v : Json}
    (h : lookupKey l k = some v) : sizeOf v < sizeOf l := by
  induction l with
  | nil => simp [lookupKey] at h
  | cons p t ih =>
      obtain ⟨a, b⟩ := p
      rw [lookupKey] at h
      by_cases hp : a = k
      · simp only [hp, if_pos rfl] at h
        cases h
        simp only [List.cons.sizeOf_spec, Prod.mk.sizeOf_spec]
        omega
      · rw [if_neg hp] at h
        have := ih h
        simp only [List.cons.sizeOf_spec, Prod.mk.sizeOf_spec]
        omega

mutual

/-- `Realm.deepSerializedToBiDi`, with the realm's `navigableId` passed in.
Reads of members untouched by earlier in-place mutations (`value` after the
rename, `children` after deleting `backendNodeId`) are taken from the
original field lists, which the preceding steps provably preserve.  A `null`
input (on which the source's `Object.hasOwn` would throw) is returned
unchanged; CDP never produces it. -/
def deepSerializedToBiDi (nav : String) (j : Json) : Json :=
  match j with
  | .obj fields =>
      let r1 := renameWeakRef fields
      -- Platform object is a special case: only `{type: 'object'}`.
      if typeTag r1 = some "platformobject" then .obj [("type", .str "object")]
      else
        match hv : lookupKey fields "value" with
        | none => .obj r1
        | some bv =>
            if typeTag r1 = some "node" then
              match hb : bv with
              | .obj bfields =>
                  let shared :=
                    match lookupKey bfields "backendNodeId" with
                    | some bn =>
                        (setKey r1 "sharedId"
                          (.str (nav ++ SHARED_ID_DIVIDER ++ jsTemplateString bn)),
                         delKey bfields "backendNodeId")
                    | none => (r1, bfields)
                  match hc : lookupKey bfields "children" with
                  | some (.arr cs) =>
                      .obj (setKey shared.1 "value"
                        (.obj (setKey shared.2 "children" (.arr (dsElems nav cs)))))
                  | some (.obj os) =>
                      .obj (setKey shared.1 "value"
                        (.obj (setKey shared.2 "children" (.obj (dsFieldVals nav os)))))
                  | _ => .obj (setKey shared.1 "value" (.obj shared.2))
              | _ => .obj r1
            else if typeTag r1 = some "array" ∨ typeTag r1 = some "set" then
              match hb : bv with
              | .arr es => .obj (setKey r1 "value" (.arr (dsElems nav es)))
              | .obj os => .obj (setKey r1 "value" (.obj (dsFieldVals nav os)))
              | _ => .obj r1
            else if typeTag r1 = some "object" ∨ typeTag r1 = some "map" then
              match hb : bv with
              | .arr es => .obj (setKey r1 "value" (.arr (dsEntries nav es)))
              | .obj os => .obj (setKey r1 "value" (.obj (dsEntryFieldVals nav os)))
              | _ => .obj r1
            else .obj r1
  | v => v
termination_by sizeOf j
decreasing_by
  all_goals subst hb
  all_goals first
    | (have h1 := sizeOf_lookupKey_lt hv
       have h2 := sizeOf_lookupKey_lt hc
       simp_all only [Json.obj.sizeOf_spec, Json.arr.sizeOf_spec]
       omega)
    | (have h1 := sizeOf_lookupKey_lt hv
       simp_all only [Json.obj.sizeOf_spec, Json.arr.sizeOf_spec]
       omega)

/-- The `for (const i in x) x[i] = this.deepSerializedToBiDi(x[i])` loop over
an array value. -/
def dsElems (nav : String) (l : List Json) : List Json :=
  match l with
  | [] => []
  | x :: xs => deepSerializedToBiDi nav x :: dsElems nav xs
termination_by sizeOf l
decreasing_by
  all_goals simp only [List.cons.sizeOf_spec]
  all_goals omega

/-- The same loop when the mutated value is a plain object (`for...in` walks
its keys and rewrites each member). -/
def dsFieldVals (nav : String) (l : List (String × Json)) :
    List (String × Json) :=
  match l with
  | [] => []
  | (k, x) :: xs => (k, deepSerializedToBiDi nav x) :: dsFieldVals nav xs
termination_by sizeOf l
decreasing_by
  all_goals simp only [List.cons.sizeOf_spec, Prod.mk.sizeOf_spec]
  all_goals omega

/-- The `object`/`map` entry loop: each entry `[k, v]` is replaced by
`[transform k, transform v]`.  An entry that is not a two-element array is
left unchanged (the source would read `undefined` components and throw; CDP
always delivers pairs). -/
def dsEntries (nav : String) (l : List Json) : List Json :=
  match l with
  | [] => []
  | e :: xs =>
      (match he : e with
       | .arr (a :: b :: _) =>
           .arr [deepSerializedToBiDi nav a, deepSerializedToBiDi nav b]
       | x => x) :: dsEntries nav xs
termination_by sizeOf l
decreasing_by
  all_goals try subst he
  all_goals simp only [List.cons.sizeOf_spec, Json.arr.sizeOf_spec]
  all_goals omega

/-- The entry loop when the entries container is a plain object. -/
def dsEntryFieldVals (nav : String) (l : List (String × Json)) :
    List (String × Json) :=
  match l with
  | [] => []
  | (k, e) :: xs =>
      (k, match he : e with
          | .arr (a :: b :: _) =>
              .arr [deepSerializedToBiDi nav a, deepSerializedToBiDi nav b]
          | x => x) :: dsEntryFieldVals nav xs
termination_by sizeOf l
decreasing_by
  all_goals try subst he
  all_goals simp only [List.cons.sizeOf_spec, Json.arr.sizeOf_spec,
    Prod.mk.sizeOf_spec]
  all_goals omega

end

theorem typeTag_renameWeakRef (fields : List (String × Json)) :
    typeTag (renameWeakRef fields) = typeTag fields := by
  unfold renameWeakRef
  cases h : lookupKey fields "weakLocalObjectReference" with
  | none => rfl
  | some w =>
      unfold typeTag
      rw [lookupKey_delKey_ne _ _ _ (by decide),
        lookupKey_setKey_ne _ _ _ _ (by decide)]

theorem lookupKey_renameWeakRef_ne (fields : List (String × Json)) (k : String)
    (h1 : k ≠ "internalId") (h2 : k ≠ "weakLocalObjectReference") :
    lookupKey (renameWeakRef fields) k = lookupKey fields k := by
  unfold renameWeakRef
  cases h : lookupKey fields "weakLocalObjectReference" with
  | none => rfl
  | some w => rw [lookupKey_delKey_ne _ _ _ h2, lookupKey_setKey_ne _ _ _ _ h1]

theorem lookupKey_renameWeakRef_internalId (fields : List (String × Json))
    (w : Json) (h : lookupKey fields "weakLocalObjectReference" = some w) :
    lookupKey (renameWeakRef fields) "internalId" =
      some (.str (jsTemplateString w)) := by
  unfold renameWeakRef
  rw [h, lookupKey_delKey_ne _ _ _ (by decide), lookupKey_setKey_self]

theorem lookupKey_renameWeakRef_weakRef (fields : List (String × Json)) :
    lookupKey (renameWeakRef fields) "weakLocalObjectReference" = none := by
  unfold renameWeakRef
  cases h : lookupKey fields "weakLocalObjectReference" with
  | none => exact h
  | some w => exact lookupKey_delKey_self _ _

theorem ds_eq_platform (nav : String) (fields : List (String × Json))
    (h : typeTag fields = some "platformobject") :
    deepSerializedToBiDi nav (.obj fields) = .obj [("type", .str "object")] := by
  rw [deepSerializedToBiDi]
  simp only [typeTag_renameWeakRef, h, if_pos]

theorem ds_eq_none (nav : String) (fields : List (String × Json))
    (hp : typeTag fields ≠ some "platformobject")
    (hv : lookupKey fields "value" = none) :
    deepSerializedToBiDi nav (.obj fields) = .obj (renameWeakRef fields) := by
  rw [deepSerializedToBiDi, typeTag_renameWeakRef]
  rw [if_neg hp]
  split
  · rfl
  · rename_i bv heq
    rw [hv] at heq
    cases heq

/-- The object fields of a serialized value (every branch of
`deepSerializedToBiDi` on an object input returns an object). -/
def objFields : Json → List (String × Json)
  | .obj l => l
  | _ => []

theorem ds_internalId_weakRef (nav : String) (fields : List (String × Json))
    (w : Json) (hw : lookupKey fields "weakLocalObjectReference" = some w)
    (hp : typeTag fields ≠ some "platformobject") :
    lookupKey (objFields (deepSerializedToBiDi nav (.obj fields))) "internalId" =
      some (.str (jsTemplateString w)) ∧
    lookupKey (objFields (deepSerializedToBiDi nav (.obj fields)))
      "weakLocalObjectReference" = none := by
  rw [deepSerializedToBiDi, typeTag_renameWeakRef]
  rw [if_neg hp]
  repeat' split
  all_goals constructor
  all_goals
    simp [objFields, lookupKey_setKey_ne,
      lookupKey_renameWeakRef_internalId fields w hw,
      lookupKey_renameWeakRef_weakRef]

/-- The entry transformation of the `object`/`map` loop, named for use in
statements. -/
def mapEntryWith (f : Json → Json) : Json → Json
  | .arr (a :: b :: _) => .arr [f a, f b]
  | x => x

theorem dsElems_eq_map (nav : String) (l : List Json) :
    dsElems nav l = l.map (deepSerializedToBiDi nav) := by
  induction l with
  | nil => simp [dsElems]
  | cons x xs ih => simp [dsElems, ih]

theorem dsEntries_eq_map (nav : String) (l : List Json) :
    dsEntries nav l = l.map (mapEntryWith (deepSerializedToBiDi nav)) := by
  induction l with
  | nil => simp [dsEntries]
  | cons e xs ih =>
      cases e with
      | arr elems =>
          match elems with
          | [] => simp [dsEntries, ih, mapEntryWith]
          | [a] => simp [dsEntries, ih, mapEntryWith]
          | a :: b :: rest => simp [dsEntries, ih, mapEntryWith]
      | null => simp [dsEntries, ih, mapEntryWith]
      | bool b => simp [dsEntries, ih, mapEntryWith]
      | num q => simp [dsEntries, ih, mapEntryWith]
      | str s => simp [dsEntries, ih, mapEntryWith]
      | obj fs => simp [dsEntries, ih, mapEntryWith]

theorem ds_node_leaf (R X : List (String × Json)) (sh : Json)
    (hbn : lookupKey X "backendNodeId" = none) :
    lookupKey (objFields (.obj (setKey (setKey R "sharedId" sh) "value" (.obj X))))
        "sharedId" = some sh ∧
    ∃ bfields1,
      lookupKey (objFields (.obj (setKey (setKey R "sharedId" sh) "value" (.obj X))))
          "value" = some (.obj bfields1) ∧
      lookupKey bfields1 "backendNodeId" = none := by
  refine ⟨?_, X, ?_, hbn⟩ <;>
    simp [objFields, lookupKey_setKey_ne, lookupKey_setKey_self]

theorem ds_node_sharedId (nav : String) (fields bfields : List (String × Json))
    (bn : Json) (ht : typeTag fields = some "node")
    (hv : lookupKey fields "value" = some (.obj bfields))
    (hbn : lookupKey bfields "backendNodeId" = some bn) :
    lookupKey (objFields (deepSerializedToBiDi nav (.obj fields))) "sharedId" =
      some (.str (nav ++ SHARED_ID_DIVIDER ++ jsTemplateString bn)) ∧
    ∃ bfields1,
      lookupKey (objFields (deepSerializedToBiDi nav (.obj fields))) "value" =
        some (.obj bfields1) ∧
      lookupKey bfields1 "backendNodeId" = none := by
  have hp : typeTag fields ≠ some "platformobject" := by rw [ht]; simp
  rw [deepSerializedToBiDi, typeTag_renameWeakRef]
  rw [if_neg hp]
  repeat' split
  all_goals simp_all
  all_goals
    exact ds_node_leaf _ _ _
      (by simp [lookupKey_setKey_ne, lookupKey_delKey_self])

theorem ds_value_obj_leaf (R X : List (String × Json)) :
    lookupKey (objFields (.obj (setKey R "value" (.obj X)))) "value" =
      some (.obj X) := by
  simp [objFields, lookupKey_setKey_self]

theorem ds_node_children (nav : String) (fields bfields : List (String × Json))
    (cs : List Json) (ht : typeTag fields = some "node")
    (hv : lookupKey fields "value" = some (.obj bfields))
    (hc : lookupKey bfields "children" = some (.arr cs)) :
    ∃ bfields1,
      lookupKey (objFields (deepSerializedToBiDi nav (.obj fields))) "value" =
        some (.obj bfields1) ∧
      lookupKey bfields1 "children" =
        some (.arr (cs.map (deepSerializedToBiDi nav))) := by
  have hp : typeTag fields ≠ some "platformobject" := by rw [ht]; simp
  rw [deepSerializedToBiDi, typeTag_renameWeakRef]
  rw [if_neg hp]
  repeat' split
  all_goals simp_all
  all_goals
    exact ⟨_, ds_value_obj_leaf _ _,
      by simp [lookupKey_setKey_self, dsElems_eq_map]⟩

theorem ds_array_set_value (nav : String) (fields : List (String × Json))
    (es : List Json)
    (harr : typeTag fields = some "array" ∨ typeTag fields = some "set")
    (hv : lookupKey fields "value" = some (.arr es)) :
    lookupKey (objFields (deepSerializedToBiDi nav (.obj fields))) "value" =
      some (.arr (es.map (deepSerializedToBiDi nav))) := by
  have hp : typeTag fields ≠ some "platformobject" := by
    cases harr with
    | inl h => rw [h]; simp
    | inr h => rw [h]; simp
  rw [deepSerializedToBiDi, typeTag_renameWeakRef]
  rw [if_neg hp]
  repeat' split
  all_goals simp_all
  all_goals simp [objFields, lookupKey_setKey_self, dsElems_eq_map]

theorem ds_object_map_value (nav : String) (fields : List (String × Json))
    (es : List Json)
    (hom : typeTag fields = some "object" ∨ typeTag fields = some "map")
    (hv : lookupKey fields "value" = some (.arr es)) :
    lookupKey (objFields (deepSerializedToBiDi nav (.obj fields))) "value" =
      some (.arr (es.map (mapEntryWith (deepSerializedToBiDi nav)))) := by
  have hp : typeTag fields ≠ some "platformobject" := by
    cases hom with
    | inl h => rw [h]; simp
    | inr h => rw [h]; simp
  have hnode : ¬typeTag fields = some "node" := by
    cases hom with
    | inl h => rw [h]; simp
    | inr h => rw [h]; simp
  have hno : ¬(typeTag fields = some "array" ∨ typeTag fields = some "set") := by
    cases hom with
    | inl h => rw [h]; simp
    | inr h => rw [h]; simp
  rw [deepSerializedToBiDi, typeTag_renameWeakRef]
  rw [if_neg hp]
  split
  · simp_all
  · rename_i bv heq
    rw [hv] at heq
    injection heq with heq
    subst heq
    rw [if_neg hnode, if_neg hno, if_pos hom]
    simp [objFields, lookupKey_setKey_self, dsEntries_eq_map]

/-- C2: `Realm.deepSerializedToBiDi` transforms a CDP deep-serialized value
into a BiDi RemoteValue: a `weakLocalObjectReference` member is replaced by an
`internalId` member (its stringified value) wherever a value survives — a
`platformobject` collapses to exactly `{type: 'object'}`, dropping everything
else including any `weakLocalObjectReference`; a `node` carrying a
`backendNodeId` gains `sharedId = navigableId ++ SHARED_ID_DIVIDER ++
backendNodeId` with `backendNodeId` removed; and the transformation recurses
into node children, into every element of array/set values, and into both
components of every entry of object/map values. -/
theorem c2_deep_serialized_to_bidi (nav : String)
    (fields : List (String × Json)) :
    (∀ w, lookupKey fields "weakLocalObjectReference" = some w →
      typeTag fields ≠ some "platformobject" →
      lookupKey (objFields (deepSerializedToBiDi nav (.obj fields)))
          "internalId" = some (.str (jsTemplateString w)) ∧
      lookupKey (objFields (deepSerializedToBiDi nav (.obj fields)))
          "weakLocalObjectReference" = none) ∧
    (typeTag fields = some "platformobject" →
      deepSerializedToBiDi nav (.obj fields) = .obj [("type", .str "object")]) ∧
    (∀ bfields bn, typeTag fields = some "node" →
      lookupKey fields "value" = some (.obj bfields) →
      lookupKey bfields "backendNodeId" = some bn →
      lookupKey (objFields (deepSerializedToBiDi nav (.obj fields)))
          "sharedId" =
        some (.str (nav ++ SHARED_ID_DIVIDER ++ jsTemplateString bn)) ∧
      ∃ bfields1,
        lookupKey (objFields (deepSerializedToBiDi nav (.obj fields)))
            "value" = some (.obj bfields1) ∧
        lookupKey bfields1 "backendNodeId" = none) ∧
    (∀ bfields cs, typeTag fields = some "node" →
      lookupKey fields "value" = some (.obj bfields) →
      lookupKey bfields "children" = some (.arr cs) →
      ∃ bfields1,
        lookupKey (objFields (deepSerializedToBiDi nav (.obj fields)))
            "value" = some (.obj bfields1) ∧
        lookupKey bfields1 "children" =
          some (.arr (cs.map (deepSerializedToBiDi nav)))) ∧
    (∀ es, typeTag fields = some "array" ∨ typeTag fields = some "set" →
      lookupKey fields "value" = some (.arr es) →
      lookupKey (objFields (deepSerializedToBiDi nav (.obj fields))) "value" =
        some (.arr (es.map (deepSerializedToBiDi nav)))) ∧
    (∀ es, typeTag fields = some "object" ∨ typeTag fields = some "map" →
      lookupKey fields "value" = some (.arr es) →
      lookupKey (objFields (deepSerializedToBiDi nav (.obj fields))) "value" =
        some (.arr (es.map (mapEntryWith (deepSerializedToBiDi nav))))) :=
  ⟨fun w hw hp => ds_internalId_weakRef nav fields w hw hp,
   ds_eq_platform nav fields,
   fun bfields bn ht hv hbn => ds_node_sharedId nav fields bfields bn ht hv hbn,
   fun bfields cs ht hv hc => ds_node_children nav fields bfields cs ht hv hc,
   fun es harr hv => ds_array_set_value nav fields es harr hv,
   fun es hom hv => ds_object_map_value nav fields es hom hv⟩

/-- Witness for C2 at concrete serialized values. -/
theorem c2_witness :
    (lookupKey (objFields (deepSerializedToBiDi "NAV"
        (.obj [("type", .str "object"), ("weakLocalObjectReference", .num 5)])))
        "internalId" = some (.str (jsTemplateString (.num 5))) ∧
      lookupKey (objFields (deepSerializedToBiDi "NAV"
        (.obj [("type", .str "object"), ("weakLocalObjectReference", .num 5)])))
        "weakLocalObjectReference" = none) ∧
    (deepSerializedToBiDi "NAV"
        (.obj [("type", .str "platformobject"), ("value", .num 1)]) =
      .obj [("type", .str "object")]) ∧
    (lookupKey (objFields (deepSerializedToBiDi "NAV"
        (.obj [("type", .str "node"),
          ("value", .obj [("backendNodeId", .num 7), ("children", .arr [])])])))
        "sharedId" =
      some (.str ("NAV" ++ SHARED_ID_DIVIDER ++ jsTemplateString (.num 7)))) ∧
    (∃ bfields1,
      lookupKey (objFields (deepSerializedToBiDi "NAV"
        (.obj [("type", .str "node"),
          ("value", .obj [("backendNodeId", .num 7), ("children", .arr [])])])))
        "value" = some (.obj bfields1) ∧
      lookupKey bfields1 "children" =
        some (.arr (([] : List Json).map (deepSerializedToBiDi "NAV")))) ∧
    (lookupKey (objFields (deepSerializedToBiDi "NAV"
        (.obj [("type", .str "array"), ("value", .arr [])]))) "value" =
      some (.arr (([] : List Json).map (deepSerializedToBiDi "NAV")))) ∧
    (lookupKey (objFields (deepSerializedToBiDi "NAV"
        (.obj [("type", .str "map"), ("value", .arr [])]))) "value" =
      some (.arr (([] : List Json).map (mapEntryWith (deepSerializedToBiDi "NAV"))))) :=
  ⟨(c2_deep_serialized_to_bidi "NAV"
      [("type", .str "object"), ("weakLocalObjectReference", .num 5)]).1
      (.num 5) rfl (by decide),
   (c2_deep_serialized_to_bidi "NAV"
      [("type", .str "platformobject"), ("value", .num 1)]).2.1 rfl,
   ((c2_deep_serialized_to_bidi "NAV"
      [("type", .str "node"),
        ("value", .obj [("backendNodeId", .num 7), ("children", .arr [])])]).2.2.1
      [("backendNodeId", .num 7), ("children", .arr [])] (.num 7)
      rfl rfl rfl).1,
   (c2_deep_serialized_to_bidi "NAV"
      [("type", .str "node"),
        ("value", .obj [("backendNodeId", .num 7), ("children", .arr [])])]).2.2.2.1
      [("backendNodeId", .num 7), ("children", .arr [])] []
      rfl rfl rfl,
   (c2_deep_serialized_to_bidi "NAV"
      [("type", .str "array"), ("value", .arr [])]).2.2.2.2.1
      [] (Or.inl rfl) rfl,
   (c2_deep_serialized_to_bidi "NAV"
      [("type", .str "map"), ("value", .arr [])]).2.2.2.2.2
      [] (Or.inr rfl) rfl⟩

/-! ## Realm handle bookkeeping and `navigableId` -/

/-- What `Realm.navigableId` reads from a stored `BrowsingContextImpl`:
its id and its (possibly unset) `navigableId`. -/
structure BrowsingContextEntry where
  id : String
  navigableId : Option String
deriving Repr

/-- `BrowsingContextStorage.findContext` (modelled by id lookup, as the spec
describes: `findContext(id) → optional`). -/
def findContext (storage : List BrowsingContextEntry) (contextId : String) :
    Option BrowsingContextEntry :=
  storage.find? (fun c => c.id == contextId)

/-- The `Realm.navigableId` getter:
`findContext(browsingContextId)?.navigableId ?? 'UNKNOWN'`. -/
def realmNavigableId (storage : List BrowsingContextEntry)
    (browsingContextId : String) : String :=
  match findContext storage browsingContextId with
  | some c => c.navigableId.getD "UNKNOWN"
  | none => "UNKNOWN"

/-- A CDP error (`{code, message}`). -/
structure CdpError where
  code : Int
  message : String
deriving Repr, DecidableEq

/-- `Realm.#releaseObject`: forwards `Runtime.releaseObject` and swallows
exactly the CDP error with code −32000 and message
"Invalid remote object id"; the argument is the outcome of the CDP call. -/
def releaseObjectResult (outcome : Option CdpError) : Except CdpError Unit :=
  match outcome with
  | none => .ok ()
  | some e =>
      if e.code = -32000 ∧ e.message = "Invalid remote object id" then .ok ()
      else .error e

/-- The `void this.#releaseObject(objectId).catch(log)` pattern in
`cdpToBidiValue`: every error escaping `#releaseObject` is caught and only
logged, never surfaced. -/
def fireAndForgetRelease (outcome : Option CdpError) : Except CdpError Unit :=
  match releaseObjectResult outcome with
  | .ok u => .ok u
  | .error _ => .ok ()

/-- The part of a CDP evaluate/callFunctionOn response that
`Realm.cdpToBidiValue` consumes. -/
structure CdpEvalResult where
  deepSerializedValue : Json
  objectId : Option String
deriving Repr

/-- JS property write on a serialized value (`(bidiValue as any).handle = …`;
the value is always an object there). -/
def jsSetField (j : Json) (k : String) (v : Json) : Json :=
  match j with
  | .obj l => .obj (setKey l k v)
  | x => x

/-- Result of `Realm.cdpToBidiValue`: the BiDi value, the updated
`knownHandlesToRealm` map, and the `Runtime.releaseObject` commands issued
without awaiting. -/
structure BidiValueOutcome where
  bidiValue : Json
  knownHandlesToRealm : List (String × String)
  releasedObjectIds : List String
deriving Repr

/-- `Realm.cdpToBidiValue`.  `handles` is `realmStorage.knownHandlesToRealm`;
a JS `Map.set` is `setKey` on the association list.  The truthiness test
`if (cdpValue.result.objectId)` also rejects an empty string. -/
def cdpToBidiValue (realmId nav : String) (handles : List (String × String))
    (cdpValue : CdpEvalResult) (resultOwnership : String) : BidiValueOutcome :=
  let bidiValue := deepSerializedToBiDi nav cdpValue.deepSerializedValue
  match cdpValue.objectId with
  | some objectId =>
      if objectId = "" then ⟨bidiValue, handles, []⟩
      else if resultOwnership = "root" then
        ⟨jsSetField bidiValue "handle" (.str objectId),
         setKey handles objectId realmId, []⟩
      else ⟨bidiValue, handles, [objectId]⟩
  | none => ⟨bidiValue, handles, []⟩

/-- `Realm.disown`: a no-op unless `knownHandlesToRealm` maps the handle to
this realm; otherwise releases the CDP object (awaiting, so a non-swallowed
CDP error aborts the call before the map is updated) and removes the entry.
Returns the updated map and the CDP release commands issued. -/
def disown (realmId handle : String) (handles : List (String × String))
    (releaseOutcome : Option CdpError) :
    Except CdpError (List (String × String) × List String) :=
  if lookupKey handles handle ≠ some realmId then .ok (handles, [])
  else
    match releaseObjectResult releaseOutcome with
    | .error e => .error e
    | .ok _ => .ok (delKey handles handle, [handle])

/-- C10: when the realm's browsing context is absent from the storage (or its
`navigableId` is unset), `Realm.navigableId` evaluates to the literal
"UNKNOWN", and a node with a `backendNodeId` serialized through such a realm
receives `sharedId = "UNKNOWN" ++ divider ++ backendNodeId` instead of
failing. -/
theorem c10_navigable_id_unknown (storage : List BrowsingContextEntry)
    (bcid : String)
    (h : findContext storage bcid = none ∨
      ∃ c, findContext storage bcid = some c ∧ c.navigableId = none) :
    realmNavigableId storage bcid = "UNKNOWN" ∧
    ∀ fields bfields bn, typeTag fields = some "node" →
      lookupKey fields "value" = some (.obj bfields) →
      lookupKey bfields "backendNodeId" = some bn →
      lookupKey (objFields (deepSerializedToBiDi
          (realmNavigableId storage bcid) (.obj fields))) "sharedId" =
        some (.str ("UNKNOWN" ++ SHARED_ID_DIVIDER ++ jsTemplateString bn)) := by
  have hnav : realmNavigableId storage bcid = "UNKNOWN" := by
    cases h with
    | inl h => rw [realmNavigableId, h]
    | inr h =>
        obtain ⟨c, hc, hn⟩ := h
        rw [realmNavigableId, hc]
        simp [hn]
  refine ⟨hnav, fun fields bfields bn ht hv hbn => ?_⟩
  have := (ds_node_sharedId (realmNavigableId storage bcid) fields bfields bn
    ht hv hbn).1
  rw [hnav] at this ⊢
  exact this

/-- Witness for C10: empty storage, concrete node value. -/
theorem c10_witness :
    realmNavigableId [] "C9" = "UNKNOWN" ∧
    lookupKey (objFields (deepSerializedToBiDi (realmNavigableId [] "C9")
        (.obj [("type", .str "node"),
          ("value", .obj [("backendNodeId", .num 42)])]))) "sharedId" =
      some (.str ("UNKNOWN" ++ SHARED_ID_DIVIDER ++ jsTemplateString (.num 42))) := by
  obtain ⟨h1, h2⟩ := c10_navigable_id_unknown [] "C9" (Or.inl rfl)
  exact ⟨h1, h2 _ _ _ rfl rfl rfl⟩

/-- C3: in `Realm.cdpToBidiValue`, when the CDP result carries an `objectId`:
under `resultOwnership = 'root'` the BiDi value gains `handle = objectId` and
`knownHandlesToRealm` records `objectId → realmId`; under any other ownership
no handle is attached, the map is unchanged, and `Runtime.releaseObject` is
issued fire-and-forget, whose errors — the specific CDP error −32000
"Invalid remote object id" inside `#releaseObject`, and every other error via
the `.catch` — never reach the command result. -/
theorem c3_cdp_to_bidi_value_ownership (realmId nav : String)
    (handles : List (String × String)) (cdpValue : CdpEvalResult)
    (resultOwnership : String) (objectId : String)
    (ho : cdpValue.objectId = some objectId) (hne : objectId ≠ "") :
    (resultOwnership = "root" →
      (cdpToBidiValue realmId nav handles cdpValue resultOwnership).bidiValue =
        jsSetField (deepSerializedToBiDi nav cdpValue.deepSerializedValue)
          "handle" (.str objectId) ∧
      (cdpToBidiValue realmId nav handles cdpValue
          resultOwnership).knownHandlesToRealm = setKey handles objectId realmId ∧
      lookupKey (cdpToBidiValue realmId nav handles cdpValue
          resultOwnership).knownHandlesToRealm objectId = some realmId ∧
      (cdpToBidiValue realmId nav handles cdpValue
          resultOwnership).releasedObjectIds = []) ∧
    (resultOwnership ≠ "root" →
      (cdpToBidiValue realmId nav handles cdpValue resultOwnership).bidiValue =
        deepSerializedToBiDi nav cdpValue.deepSerializedValue ∧
      (cdpToBidiValue realmId nav handles cdpValue
          resultOwnership).knownHandlesToRealm = handles ∧
      (cdpToBidiValue realmId nav handles cdpValue
          resultOwnership).releasedObjectIds = [objectId]) ∧
    (∀ outcome, fireAndForgetRelease outcome = .ok ()) ∧
    releaseObjectResult (some ⟨-32000, "Invalid remote object id"⟩) = .ok () ∧
    (∀ e : CdpError,
      ¬(e.code = -32000 ∧ e.message = "Invalid remote object id") →
      releaseObjectResult (some e) = .error e) := by
  refine ⟨?_, ?_, ?_, ?_, ?_⟩
  · intro hroot
    simp [cdpToBidiValue, ho, hne, hroot, lookupKey_setKey_self]
  · intro hnroot
    simp [cdpToBidiValue, ho, hne, hnroot]
  · intro outcome
    cases h : releaseObjectResult outcome with
    | ok u => simp [fireAndForgetRelease, h]
    | error e => simp [fireAndForgetRelease, h]
  · simp [releaseObjectResult]
  · intro e h
    simp only [releaseObjectResult]
    rw [if_neg h]

/-- Witness for C3 at a concrete CDP result, once with `root` and once with
`none` ownership. -/
theorem c3_witness :
    ((cdpToBidiValue "R" "N" [] ⟨.num 1, some "obj1"⟩ "root").bidiValue =
        jsSetField (deepSerializedToBiDi "N" (.num 1)) "handle" (.str "obj1") ∧
      (cdpToBidiValue "R" "N" [] ⟨.num 1, some "obj1"⟩
          "root").knownHandlesToRealm = setKey [] "obj1" "R" ∧
      lookupKey (cdpToBidiValue "R" "N" [] ⟨.num 1, some "obj1"⟩
          "root").knownHandlesToRealm "obj1" = some "R" ∧
      (cdpToBidiValue "R" "N" [] ⟨.num 1, some "obj1"⟩
          "root").releasedObjectIds = []) ∧
    ((cdpToBidiValue "R" "N" [] ⟨.num 1, some "obj1"⟩ "none").bidiValue =
        deepSerializedToBiDi "N" (.num 1) ∧
      (cdpToBidiValue "R" "N" [] ⟨.num 1, some "obj1"⟩
          "none").knownHandlesToRealm = [] ∧
      (cdpToBidiValue "R" "N" [] ⟨.num 1, some "obj1"⟩
          "none").releasedObjectIds = ["obj1"]) ∧
    fireAndForgetRelease (some ⟨7, "boom"⟩) = .ok () :=
  ⟨(c3_cdp_to_bidi_value_ownership "R" "N" [] ⟨.num 1, some "obj1"⟩ "root"
      "obj1" rfl (by decide)).1 rfl,
   (c3_cdp_to_bidi_value_ownership "R" "N" [] ⟨.num 1, some "obj1"⟩ "none"
      "obj1" rfl (by decide)).2.1 (by decide),
   (c3_cdp_to_bidi_value_ownership "R" "N" [] ⟨.num 1, some "obj1"⟩ "none"
      "obj1" rfl (by decide)).2.2.1 (some ⟨7, "boom"⟩)⟩

/-- C4: `Realm.disown` is a no-op — no error, no map change, no CDP call —
whenever `knownHandlesToRealm` does not map the handle to this realm (unknown
handle or another realm's handle); and a second `disown` of the same handle
right after a completed one is such a no-op, so the final state is that of a
single call. -/
theorem c4_disown_noop_idempotent (realmId handle : String)
    (handles : List (String × String)) :
    (∀ outcome, lookupKey handles handle ≠ some realmId →
      disown realmId handle handles outcome = .ok (handles, [])) ∧
    (∀ o1 o2 m1 c1, disown realmId handle handles o1 = .ok (m1, c1) →
      disown realmId handle m1 o2 = .ok (m1, [])) := by
  constructor
  · intro outcome h
    rw [disown, if_pos h]
  · intro o1 o2 m1 c1 h
    by_cases hg : lookupKey handles handle ≠ some realmId
    · rw [disown, if_pos hg] at h
      obtain ⟨rfl, -⟩ : handles = m1 ∧ [] = c1 := by
        cases h; exact ⟨rfl, rfl⟩
      rw [disown, if_pos hg]
    · rw [disown, if_neg hg] at h
      cases hr : releaseObjectResult o1 with
      | error e => rw [hr] at h; cases h
      | ok u =>
          rw [hr] at h
          obtain ⟨rfl, -⟩ : delKey handles handle = m1 ∧ [handle] = c1 := by
            cases h; exact ⟨rfl, rfl⟩
          have : lookupKey (delKey handles handle) handle ≠ some realmId := by
            rw [lookupKey_delKey_self]
            simp
          rw [disown, if_pos this]

/-- Witness for C4: a handle owned by another realm, then a completed disown
followed by a repeated disown. -/
theorem c4_witness :
    (lookupKey [("h1", "OTHER")] "h1" ≠ some "R" ∧
      disown "R" "h1" [("h1", "OTHER")] none = .ok ([("h1", "OTHER")], [])) ∧
    (disown "R" "h1" [("h1", "R")] none = .ok ([], ["h1"]) ∧
      disown "R" "h1" [] none = .ok ([], [])) :=
  ⟨⟨by decide,
    (c4_disown_noop_idempotent "R" "h1" [("h1", "OTHER")]).1 none (by decide)⟩,
   ⟨rfl,
    (c4_disown_noop_idempotent "R" "h1" [("h1", "R")]).2 none none [] ["h1"] rfl⟩⟩

/-! ## Input dispatch (`BrowsingContextProcessor`) -/

/-- One action source of `input.performActions` (`action.id` with its action
sequence); action payloads are opaque. -/
structure SourceActions (α : Type) where
  id : String
  actions : List α
deriving Repr

/-- An action tagged with its source id (`{id: action.id, action: item}`). -/
structure ActionOption (α : Type) where
  id : String
  action : α
deriving Repr, DecidableEq

/-- The inner loop of `#getActionsByTick`: position `i` of the accumulator
receives the `i`-th action of the current source, extending the tick list
when `actionsByTick.length === i`. -/
def addToTicks {α : Type} :
    List (List (ActionOption α)) → List (ActionOption α) →
      List (List (ActionOption α))
  | ticks, [] => ticks
  | t :: ts, a :: rest => (t ++ [a]) :: addToTicks ts rest
  | [], a :: rest => [a] :: addToTicks [] rest

/-- `BrowsingContextProcessor.#getActionsByTick` (the tick decomposition;
the per-source `inputState.getOrCreate` bookkeeping and the pointer-subtype
validation, which may throw before any tick is built, do not affect the
decomposition itself). -/
def getActionsByTick {α : Type} (sources : List (SourceActions α)) :
    List (List (ActionOption α)) :=
  sources.foldl
    (fun acc src => addToTicks acc (src.actions.map (fun a => ⟨src.id, a⟩))) []

theorem addToTicks_getD {α : Type} (new : List (ActionOption α))
    (acc : List (List (ActionOption α))) (i : ℕ) :
    (addToTicks acc new)[i]?.getD [] =
      acc[i]?.getD [] ++ new[i]?.toList := by
  induction new generalizing acc i with
  | nil => cases acc <;> cases i <;> simp [addToTicks]
  | cons a rest ih =>
      cases acc with
      | nil => cases i <;> simp [addToTicks, ih]
      | cons t ts => cases i <;> simp [addToTicks, ih]

theorem addToTicks_length {α : Type} (new : List (ActionOption α))
    (acc : List (List (ActionOption α))) :
    (addToTicks acc new).length = max acc.length new.length := by
  induction new generalizing acc with
  | nil => cases acc <;> simp [addToTicks]
  | cons a rest ih =>
      cases acc with
      | nil => simp [addToTicks, ih]
      | cons t ts => simp [addToTicks, ih]; omega

theorem getActionsByTick_foldl_getD {α : Type}
    (sources : List (SourceActions α)) (acc : List (List (ActionOption α)))
    (i : ℕ) :
    (sources.foldl
        (fun acc src =>
          addToTicks acc (src.actions.map (fun a => ⟨src.id, a⟩))) acc)[i]?.getD
        [] =
      acc[i]?.getD [] ++
        sources.filterMap
          (fun s => s.actions[i]?.map (fun a => ⟨s.id, a⟩)) := by
  induction sources generalizing acc with
  | nil => simp
  | cons s ss ih =>
      rw [List.foldl_cons, ih, addToTicks_getD]
      rw [List.filterMap_cons]
      cases hs : s.actions[i]? with
      | none => simp [List.getElem?_map, hs, List.append_assoc]
      | some a => simp [List.getElem?_map, hs, List.append_assoc]

theorem getActionsByTick_foldl_length {α : Type}
    (sources : List (SourceActions α)) (acc : List (List (ActionOption α))) :
    (sources.foldl
        (fun acc src =>
          addToTicks acc (src.actions.map (fun a => ⟨src.id, a⟩))) acc).length =
      sources.foldl (fun m s => max m s.actions.length) acc.length := by
  induction sources generalizing acc with
  | nil => simp
  | cons s ss ih =>
      rw [List.foldl_cons, ih, List.foldl_cons, addToTicks_length,
        List.length_map]

/-- C5: `#getActionsByTick` produces `max(k1..kn)` ticks for sources with
sequence lengths `k1..kn`, and tick `i` holds exactly one tagged action from
each source whose sequence is longer than `i`, in request order. -/
theorem c5_actions_by_tick {α : Type} (sources : List (SourceActions α)) :
    (getActionsByTick sources).length =
      sources.foldl (fun m s => max m s.actions.length) 0 ∧
    ∀ i : ℕ, (getActionsByTick sources)[i]?.getD [] =
      sources.filterMap
        (fun s => s.actions[i]?.map (fun a => (⟨s.id, a⟩ : ActionOption α))) := by
  constructor
  · rw [getActionsByTick, getActionsByTick_foldl_length]
    rfl
  · intro i
    rw [getActionsByTick, getActionsByTick_foldl_getD]
    rfl

/-! ## `input.releaseActions` -/

/-- Modelled from the spec: after dispatching an action, its inverse is
*prepended* to the input state's `cancelList` (the accumulating code lives in
the ActionDispatcher source, which is not among the sources). -/
def prependInverse {α : Type} (cancelList : List α) (inverse : α) : List α :=
  inverse :: cancelList

/-- `BrowsingContextProcessor.process_input_releaseActions`: dispatch
`inputState.cancelList.reverse()` as one tick sequence, then delete the
`InputState` entry of the top-level context.  The manager is an association
list `topContext → cancelList`; `InputStateManager.get` yields an empty state
for an unknown context.  Returns the dispatched sequence and the updated
manager. -/
def process_input_releaseActions {α : Type} (states : List (String × List α))
    (topContext : String) : List α × List (String × List α) :=
  (((lookupKey states topContext).getD []).reverse, delKey states topContext)

theorem foldl_prependInverse {α : Type} (l : List α) (init : List α) :
    l.foldl prependInverse init = l.reverse ++ init := by
  induction l generalizing init with
  | nil => simp
  | cons x xs ih => simp [prependInverse, ih]

/-- Claim C6 as stated, at a two-action accumulation: the prepend-accumulated
`cancelList` of inverses `0` then `1` is `[1, 0]`; the claim says the
dispatched order is newest-first, i.e. `[1, 0]`.  The code dispatches
`cancelList.reverse()`, i.e. `[0, 1]`. -/
theorem c6_counterexample :
    (process_input_releaseActions
        [("top", List.foldl prependInverse ([] : List ℕ) [0, 1])] "top").1 ≠
      [1, 0] := by decide

/-- C6 (amended): `releaseActions` dispatches the reverse of the stored
`cancelList` as a single tick sequence — under the spec's prepend
accumulation this is accumulation order, oldest inverse first — and then
deletes the `InputState` entry for the top-level context. -/
theorem c6_release_actions_dispatch {α : Type} (accumulated : List α)
    (topContext : String) (states : List (String × List α)) :
    (process_input_releaseActions
        (setKey states topContext (accumulated.foldl prependInverse []))
        topContext).1 = accumulated ∧
    lookupKey
      (process_input_releaseActions
        (setKey states topContext (accumulated.foldl prependInverse []))
        topContext).2 topContext = none := by
  constructor
  · rw [process_input_releaseActions]
    rw [lookupKey_setKey_self]
    simp [foldl_prependInverse]
  · rw [process_input_releaseActions]
    exact lookupKey_delKey_self _ _

/-! ## Target lifecycle (`BrowsingContextProcessor`)

The handlers for `Target.attachedToTarget`, `Target.detachedFromTarget`,
`Page.frameAttached` and `Page.frameDetached` are embedded as a step function
on a processor state.  `CdpTarget.create` is modelled as allocating a fresh
target token (its CDP session setup is outside the claims);
`BrowsingContextImpl.create`/`delete` and `serializeToBidiValue` are modelled
from the spec (context creation with a `contextCreated` event, cascading
subtree deletion, recursive tree serialization). -/

/-- The slice of `Protocol.Target.TargetInfo` the processor consults. -/
structure TargetInfo where
  targetId : String
  type : String
deriving Repr, DecidableEq

/-- A stored `BrowsingContextImpl`, reduced to what the lifecycle handlers
touch: its id, parent id and owning `CdpTarget` (identified by a token). -/
structure BContext where
  id : String
  parentId : Option String
  cdpTarget : Nat
deriving Repr, DecidableEq

/-- Processor state: `BrowsingContextStorage` contents, the CDP preload
script registrations `(targetId, cdpPreloadScriptId)`, and a counter
producing fresh `CdpTarget` tokens. -/
structure ProcState where
  contexts : List BContext
  cdpPreloads : List (String × Nat)
  nextTargetToken : Nat
deriving Repr, DecidableEq

/-- Observable effects of one handler invocation. -/
inductive Effect where
  | cdpCommand (method : String) (targetId : String)
  | clientEvent (name : String) (contextId : String)
deriving Repr, DecidableEq

/-- `BrowsingContextProcessor.#isValidTarget`. -/
def isValidTarget (selfTargetId : String) (t : TargetInfo) : Bool :=
  if t.targetId = selfTargetId then false
  else t.type = "page" || t.type = "iframe"

/-- The ids of the stored contexts. -/
def contextIds (cs : List BContext) : List String := cs.map (·.id)

/-- `BrowsingContextImpl.delete` (modelled from the spec: deleting a context
cascades to its children); `fuel` bounds the recursion depth and is
instantiated with the storage size. -/
def deleteSubtree : Nat → List BContext → String → List BContext
  | 0, cs, _ => cs
  | fuel + 1, cs, cid =>
      let kids := (cs.filter (fun c => c.parentId = some cid)).map (·.id)
      (kids.foldl (deleteSubtree fuel) cs).filter (fun c => c.id ≠ cid)

/-- `BrowsingContextProcessor.#handleAttachedToTargetEvent`: invalid targets
(the self target among them) are only released and detached; for a valid
target a `CdpTarget` is created, and an existing context with the same id is
kept with its `cdpTarget` swapped, while a new top-level context is created
otherwise. -/
def handleAttachedToTargetEvent (selfTargetId : String) (st : ProcState)
    (t : TargetInfo) : ProcState × List Effect :=
  if ¬ isValidTarget selfTargetId t then
    (st, [.cdpCommand "Runtime.runIfWaitingForDebugger" t.targetId,
          .cdpCommand "Target.detachFromTarget" t.targetId])
  else
    let newTarget := st.nextTargetToken
    match st.contexts.find? (fun c => c.id == t.targetId) with
    | some _ =>
        ({ st with
            contexts := st.contexts.map (fun c =>
              if c.id = t.targetId then { c with cdpTarget := newTarget }
              else c),
            nextTargetToken := newTarget + 1 }, [])
    | none =>
        ({ st with
            contexts := st.contexts ++ [⟨t.targetId, none, newTarget⟩],
            nextTargetToken := newTarget + 1 },
         [.clientEvent "browsingContext.contextCreated" t.targetId])

/-- `BrowsingContextProcessor.#handleDetachedFromTargetEvent`: delete the
context (when stored) and drop the target's CDP preload script records. -/
def handleDetachedFromTargetEvent (st : ProcState) (targetId : String) :
    ProcState :=
  { st with
    contexts :=
      match st.contexts.find? (fun c => c.id == targetId) with
      | some _ => deleteSubtree st.contexts.length st.contexts targetId
      | none => st.contexts,
    cdpPreloads := st.cdpPreloads.filter (fun p => p.1 ≠ targetId) }

/-- `BrowsingContextProcessor.#handleFrameAttachedEvent`: create a child
context when the parent is stored. -/
def handleFrameAttachedEvent (st : ProcState) (frameId parentFrameId : String) :
    ProcState × List Effect :=
  match st.contexts.find? (fun c => c.id == parentFrameId) with
  | some parent =>
      ({ st with
          contexts :=
            st.contexts ++ [⟨frameId, some parentFrameId, parent.cdpTarget⟩] },
       [.clientEvent "browsingContext.contextCreated" frameId])
  | none => (st, [])

/-- `BrowsingContextProcessor.#handleFrameDetachedEvent`: delete the context
unless the detach reason is `swap`. -/
def handleFrameDetachedEvent (st : ProcState) (frameId reason : String) :
    ProcState :=
  if reason = "swap" then st
  else
    { st with
      contexts :=
        match st.contexts.find? (fun c => c.id == frameId) with
        | some _ => deleteSubtree st.contexts.length st.contexts frameId
        | none => st.contexts }

/-- The CDP events the processor subscribes to in `#setEventListeners`. -/
inductive CdpEvent where
  | attachedToTarget (t : TargetInfo)
  | detachedFromTarget (targetId : String)
  | frameAttached (frameId parentFrameId : String)
  | frameDetached (frameId reason : String)
deriving Repr, DecidableEq

/-- State transition of one CDP event. -/
def stepEvent (selfTargetId : String) (st : ProcState) (e : CdpEvent) :
    ProcState :=
  match e with
  | .attachedToTarget t => (handleAttachedToTargetEvent selfTargetId st t).1
  | .detachedFromTarget targetId => handleDetachedFromTargetEvent st targetId
  | .frameAttached f p => (handleFrameAttachedEvent st f p).1
  | .frameDetached f r => handleFrameDetachedEvent st f r

/-- Processing a CDP event sequence. -/
def applyEvents (selfTargetId : String) (st : ProcState)
    (events : List CdpEvent) : ProcState :=
  events.foldl (stepEvent selfTargetId) st

/-- The context id a CDP event may add to the storage. -/
def eventCreatesId : CdpEvent → Option String
  | .attachedToTarget t => some t.targetId
  | .frameAttached f _ => some f
  | .detachedFromTarget _ => none
  | .frameDetached _ _ => none

/-- Modelled from the spec: the ids listed by `browsingContext.getTree`
without `root` — top-level contexts serialized recursively with their
children (`serializeToBidiValue`); `fuel` bounds the depth. -/
def treeIds : Nat → List BContext → String → List String
  | 0, _, cid => [cid]
  | fuel + 1, cs, cid =>
      cid ::
        ((cs.filter (fun c => c.parentId = some cid)).map (·.id)).flatMap
          (treeIds fuel cs)

/-- All context ids appearing in the `browsingContext.getTree` response. -/
def getTreeListedIds (cs : List BContext) : List String :=
  ((cs.filter (fun c => c.parentId = none)).map (·.id)).flatMap
    (treeIds cs.length cs)

theorem mem_treeIds (fuel : Nat) (cs : List BContext) (cid x : String)
    (h : x ∈ treeIds fuel cs cid) : x = cid ∨ ∃ c ∈ cs, c.id = x := by
  induction fuel generalizing cid with
  | zero => simp [treeIds] at h; exact Or.inl h
  | succ fuel ih =>
      rw [treeIds] at h
      rcases List.mem_cons.mp h with h | h
      · exact Or.inl h
      · obtain ⟨k, hk, hx⟩ := List.mem_flatMap.mp h
        obtain ⟨c, hc, rfl⟩ := List.mem_map.mp hk
        rcases ih c.id hx with rfl | h
        · exact Or.inr ⟨c, List.mem_of_mem_filter hc, rfl⟩
        · exact Or.inr h

theorem mem_getTreeListedIds (cs : List BContext) (x : String)
    (h : x ∈ getTreeListedIds cs) : ∃ c ∈ cs, c.id = x := by
  rw [getTreeListedIds] at h
  obtain ⟨k, hk, hx⟩ := List.mem_flatMap.mp h
  obtain ⟨c, hc, rfl⟩ := List.mem_map.mp hk
  rcases mem_treeIds _ _ _ _ hx with rfl | h
  · exact ⟨c, List.mem_of_mem_filter hc, rfl⟩
  · exact h

theorem deleteSubtree_subset :
    ∀ (fuel : Nat) (cs : List BContext) (cid : String) (c : BContext),
      c ∈ deleteSubtree fuel cs cid → c ∈ cs := by
  intro fuel
  induction fuel with
  | zero => intro cs cid c h; simpa [deleteSubtree] using h
  | succ fuel ih =>
      have aux : ∀ (ks : List String) (cs : List BContext) (c : BContext),
          c ∈ ks.foldl (deleteSubtree fuel) cs → c ∈ cs := by
        intro ks
        induction ks with
        | nil => intro cs c h; simpa using h
        | cons k ks ihk =>
            intro cs c h
            rw [List.foldl_cons] at h
            exact ih _ _ _ (ihk _ _ h)
      intro cs cid c h
      rw [deleteSubtree] at h
      exact aux _ _ _ (List.mem_of_mem_filter h)

theorem deleteSubtree_removes (fuel : Nat) (cs : List BContext) (cid : String)
    (hfuel : 0 < fuel) : cid ∉ contextIds (deleteSubtree fuel cs cid) := by
  match fuel, hfuel with
  | fuel + 1, _ =>
      intro h
      obtain ⟨c, hc, rfl⟩ := List.mem_map.mp h
      rw [deleteSubtree] at hc
      have := List.of_mem_filter hc
      simp at this

theorem not_mem_contextIds (cs : List BContext) (x : String) :
    x ∉ contextIds cs ↔ ∀ c ∈ cs, c.id ≠ x := by
  rw [contextIds]
  constructor
  · intro h c hc he
    exact h (List.mem_map.mpr ⟨c, hc, he⟩)
  · intro h hm
    obtain ⟨c, hc, he⟩ := List.mem_map.mp hm
    exact h c hc he

theorem detach_removes (st : ProcState) (targetId : String) :
    targetId ∉ contextIds (handleDetachedFromTargetEvent st targetId).contexts := by
  rw [handleDetachedFromTargetEvent]
  cases hf : st.contexts.find? (fun c => c.id == targetId) with
  | some c =>
      simp only [hf]
      apply deleteSubtree_removes
      have : c ∈ st.contexts := List.mem_of_find?_eq_some hf
      cases hcs : st.contexts with
      | nil => rw [hcs] at this; cases this
      | cons a l => simp [hcs]
  | none =>
      simp only [hf]
      rw [not_mem_contextIds]
      intro c hc he
      have := List.find?_eq_none.mp hf c hc
      simp [he] at this

/-- One step never introduces a context id the event does not carry. -/
theorem stepEvent_not_mem (selfTargetId : String) (st : ProcState)
    (e : CdpEvent) (x : String) (h : x ∉ contextIds st.contexts)
    (hc : eventCreatesId e ≠ some x) :
    x ∉ contextIds (stepEvent selfTargetId st e).contexts := by
  cases e with
  | attachedToTarget t =>
      have hx : t.targetId ≠ x := by
        intro he; exact hc (by rw [eventCreatesId, he])
      rw [stepEvent, handleAttachedToTargetEvent]
      by_cases hv : isValidTarget selfTargetId t
      · rw [if_neg (by simp [hv])]
        cases hf : st.contexts.find? (fun c => c.id == t.targetId) with
        | some c =>
            simp only [hf]
            rw [not_mem_contextIds] at h ⊢
            intro c' hc' he
            obtain ⟨c0, hc0, rfl⟩ := List.mem_map.mp hc'
            by_cases h0 : c0.id = t.targetId
            · rw [if_pos h0] at he
              have he' : c0.id = x := he
              exact hx (h0.symm.trans he')
            · rw [if_neg h0] at he
              exact h c0 hc0 he
        | none =>
            simp only [hf]
            rw [not_mem_contextIds] at h ⊢
            intro c' hc' he
            rcases List.mem_append.mp hc' with hm | hm
            · exact h c' hm he
            · rw [List.mem_singleton] at hm
              subst hm
              exact hx he
      · rw [if_pos (by simp [hv])]
        exact h
  | detachedFromTarget targetId =>
      rw [stepEvent, handleDetachedFromTargetEvent]
      rw [not_mem_contextIds] at h ⊢
      intro c hc he
      cases hf : st.contexts.find? (fun c => c.id == targetId) with
      | some c0 =>
          simp only [hf] at hc
          exact h c (deleteSubtree_subset _ _ _ _ hc) he
      | none =>
          simp only [hf] at hc
          exact h c hc he
  | frameAttached f p =>
      have hx : f ≠ x := by
        intro he; exact hc (by rw [eventCreatesId, he])
      rw [stepEvent, handleFrameAttachedEvent]
      cases hf : st.contexts.find? (fun c => c.id == p) with
      | some parent =>
          simp only [hf]
          rw [not_mem_contextIds] at h ⊢
          intro c hc' he
          rcases List.mem_append.mp hc' with hm | hm
          · exact h c hm he
          · rw [List.mem_singleton] at hm
            subst hm
            exact hx he
      | none => simp only [hf]; exact h
  | frameDetached f r =>
      rw [stepEvent, handleFrameDetachedEvent]
      by_cases hr : r = "swap"
      · rw [if_pos hr]; exact h
      · rw [if_neg hr]
        rw [not_mem_contextIds] at h ⊢
        intro c hc he
        cases hf : st.contexts.find? (fun c => c.id == f) with
        | some c0 =>
            simp only [hf] at hc
            exact h c (deleteSubtree_subset _ _ _ _ hc) he
        | none =>
            simp only [hf] at hc
            exact h c hc he

theorem self_attach_unchanged (selfTargetId : String) (st : ProcState)
    (t : TargetInfo) (ht : t.targetId = selfTargetId) :
    handleAttachedToTargetEvent selfTargetId st t =
      (st, [.cdpCommand "Runtime.runIfWaitingForDebugger" t.targetId,
            .cdpCommand "Target.detachFromTarget" t.targetId]) := by
  have hv : isValidTarget selfTargetId t = false := by
    rw [isValidTarget, if_pos ht]
  rw [handleAttachedToTargetEvent, if_pos (by simp [hv])]

theorem applyEvents_self_not_mem (selfTargetId : String)
    (events : List CdpEvent) :
    ∀ st : ProcState, selfTargetId ∉ contextIds st.contexts →
      (∀ f p, CdpEvent.frameAttached f p ∈ events → f ≠ selfTargetId) →
      selfTargetId ∉
        contextIds (applyEvents selfTargetId st events).contexts := by
  induction events with
  | nil => intro st h _; simpa [applyEvents] using h
  | cons e rest ih =>
      intro st h hframe
      have hstep : selfTargetId ∉
          contextIds (stepEvent selfTargetId st e).contexts := by
        cases e with
        | attachedToTarget t =>
            by_cases ht : t.targetId = selfTargetId
            · have : stepEvent selfTargetId st (.attachedToTarget t) = st := by
                rw [stepEvent, self_attach_unchanged selfTargetId st t ht]
              rw [this]; exact h
            · exact stepEvent_not_mem selfTargetId st _ _ h
                (by rw [eventCreatesId]; simp [ht])
        | frameAttached f p =>
            have hf : f ≠ selfTargetId :=
              hframe f p (List.mem_cons_self _ _)
            exact stepEvent_not_mem selfTargetId st _ _ h
              (by rw [eventCreatesId]; simp [hf])
        | detachedFromTarget targetId =>
            exact stepEvent_not_mem selfTargetId st _ _ h
              (by rw [eventCreatesId]; simp)
        | frameDetached f r =>
            exact stepEvent_not_mem selfTargetId st _ _ h
              (by rw [eventCreatesId]; simp)
      have hframe' : ∀ f p, CdpEvent.frameAttached f p ∈ rest →
          f ≠ selfTargetId := fun f p hm =>
        hframe f p (List.mem_cons_of_mem _ hm)
      have := ih (stepEvent selfTargetId st e) hstep hframe'
      simpa [applyEvents] using this

/-- C9: a `Target.attachedToTarget` event for the self target only releases
the debugger and detaches — no state change, no client-visible event — and
consequently, over any CDP event sequence from the initial state (in which
the browser never reports a frame with the self target's id), the self target
never enters `BrowsingContextStorage` and never appears among the contexts
listed by `browsingContext.getTree`. -/
theorem c9_self_target_invisible (selfTargetId : String)
    (events : List CdpEvent)
    (hframe : ∀ f p, CdpEvent.frameAttached f p ∈ events → f ≠ selfTargetId) :
    (∀ (st : ProcState) (t : TargetInfo), t.targetId = selfTargetId →
      handleAttachedToTargetEvent selfTargetId st t =
        (st, [.cdpCommand "Runtime.runIfWaitingForDebugger" t.targetId,
              .cdpCommand "Target.detachFromTarget" t.targetId])) ∧
    selfTargetId ∉
      contextIds (applyEvents selfTargetId ⟨[], [], 0⟩ events).contexts ∧
    selfTargetId ∉
      getTreeListedIds (applyEvents selfTargetId ⟨[], [], 0⟩ events).contexts := by
  have hbase : selfTargetId ∉ contextIds ((⟨[], [], 0⟩ : ProcState)).contexts := by
    simp [contextIds]
  have h2 := applyEvents_self_not_mem selfTargetId events ⟨[], [], 0⟩ hbase hframe
  refine ⟨fun st t ht => self_attach_unchanged selfTargetId st t ht, h2, ?_⟩
  intro hm
  obtain ⟨c, hc, rfl⟩ :=
    mem_getTreeListedIds (applyEvents selfTargetId ⟨[], [], 0⟩ events).contexts
      _ hm
  exact h2 (List.mem_map.mpr ⟨c, hc, rfl⟩)

/-- Witness for C9: the self target attaches, then a page target attaches. -/
theorem c9_witness :
    handleAttachedToTargetEvent "SELF" ⟨[], [], 0⟩ ⟨"SELF", "page"⟩ =
      (⟨[], [], 0⟩, [.cdpCommand "Runtime.runIfWaitingForDebugger" "SELF",
        .cdpCommand "Target.detachFromTarget" "SELF"]) ∧
    "SELF" ∉ contextIds (applyEvents "SELF" ⟨[], [], 0⟩
      [.attachedToTarget ⟨"SELF", "page"⟩,
       .attachedToTarget ⟨"C1", "page"⟩]).contexts ∧
    "SELF" ∉ getTreeListedIds (applyEvents "SELF" ⟨[], [], 0⟩
      [.attachedToTarget ⟨"SELF", "page"⟩,
       .attachedToTarget ⟨"C1", "page"⟩]).contexts := by
  have h := c9_self_target_invisible "SELF"
    [.attachedToTarget ⟨"SELF", "page"⟩, .attachedToTarget ⟨"C1", "page"⟩]
    (by simp)
  exact ⟨h.1 ⟨[], [], 0⟩ ⟨"SELF", "page"⟩ rfl, h.2.1, h.2.2⟩

/-- C7: for a valid `Target.attachedToTarget` whose targetId matches a stored
context (OOPIF process migration), no context is created — the stored id list
is unchanged, the matching context's `cdpTarget` is swapped to the newly
created target and every other context is untouched; a new (top-level)
context is appended only when no context with that id exists. -/
theorem c7_attached_to_target_oopif (selfTargetId : String) (st : ProcState)
    (t : TargetInfo) (hvalid : isValidTarget selfTargetId t = true) :
    ((∃ c ∈ st.contexts, c.id = t.targetId) →
      contextIds (handleAttachedToTargetEvent selfTargetId st t).1.contexts =
        contextIds st.contexts ∧
      ∀ c ∈ (handleAttachedToTargetEvent selfTargetId st t).1.contexts,
        (c.id = t.targetId → c.cdpTarget = st.nextTargetToken) ∧
        (c.id ≠ t.targetId → c ∈ st.contexts)) ∧
    ((¬ ∃ c ∈ st.contexts, c.id = t.targetId) →
      (handleAttachedToTargetEvent selfTargetId st t).1.contexts =
        st.contexts ++ [⟨t.targetId, none, st.nextTargetToken⟩]) := by
  rw [handleAttachedToTargetEvent, if_neg (by simp [hvalid])]
  cases hf : st.contexts.find? (fun c => c.id == t.targetId) with
  | some c0 =>
      dsimp only
      constructor
      · rintro -
        constructor
        · rw [contextIds, contextIds, List.map_map]
          apply List.map_congr_left
          intro c hc
          by_cases h0 : c.id = t.targetId <;> simp [h0]
        · intro c hc
          obtain ⟨c1, hc1, rfl⟩ := List.mem_map.mp hc
          constructor
          · intro hid
            by_cases h0 : c1.id = t.targetId
            · simp [h0]
            · rw [if_neg h0] at hid
              exact absurd hid h0
          · intro hid
            by_cases h0 : c1.id = t.targetId
            · rw [if_pos h0] at hid
              exact absurd h0 hid
            · rw [if_neg h0]
              exact hc1
      · intro hne
        exact absurd ⟨c0, List.mem_of_find?_eq_some hf,
          by simpa using List.find?_some hf⟩ hne
  | none =>
      dsimp only
      constructor
      · rintro ⟨c, hc, hid⟩
        have := List.find?_eq_none.mp hf c hc
        simp [hid] at this
      · rintro -
        rfl

/-- Witness for C7: a stored context migrating to a new target, and a fresh
target creating a context. -/
theorem c7_witness :
    ((contextIds (handleAttachedToTargetEvent "SELF"
        ⟨[⟨"C1", none, 0⟩], [], 5⟩ ⟨"C1", "iframe"⟩).1.contexts =
      contextIds [⟨"C1", none, 0⟩] ∧
      ∀ c ∈ (handleAttachedToTargetEvent "SELF"
          ⟨[⟨"C1", none, 0⟩], [], 5⟩ ⟨"C1", "iframe"⟩).1.contexts,
        (c.id = "C1" → c.cdpTarget = 5) ∧
        (c.id ≠ "C1" → c ∈ [⟨"C1", none, 0⟩])) ∧
    (handleAttachedToTargetEvent "SELF"
        ⟨[⟨"C1", none, 0⟩], [], 5⟩ ⟨"C2", "page"⟩).1.contexts =
      [⟨"C1", none, 0⟩] ++ [⟨"C2", none, 5⟩]) :=
  ⟨(c7_attached_to_target_oopif "SELF" ⟨[⟨"C1", none, 0⟩], [], 5⟩
      ⟨"C1", "iframe"⟩ (by decide)).1 (by simp),
   (c7_attached_to_target_oopif "SELF" ⟨[⟨"C1", none, 0⟩], [], 5⟩
      ⟨"C2", "page"⟩ (by decide)).2 (by simp)⟩

/-! ## `browsingContext.close` -/

/-- Events observable while `browsingContext.close` is pending: the
`Target.closeTarget` CDP reply, or any other CDP event. -/
inductive CloseEvent where
  | closeTargetReply
  | cdp (e : CdpEvent)
deriving Repr, DecidableEq

/-- Index of the first occurrence of `x` in a list. -/
def firstIdx {α : Type} [DecidableEq α] (x : α) : List α → Option Nat
  | [] => none
  | y :: ys => if y = x then some 0 else (firstIdx x ys).map (· + 1)

/-- The index at which `process_browsingContext_close` resolves: it awaits
the `Target.closeTarget` reply, then the promise resolved by the
`Target.detachedFromTarget` listener for the closed context — the listener is
registered before the command is sent, so the two may arrive in either
order.  `none` when either never occurs. -/
def closeResolveIndex (contextId : String) (tr : List CloseEvent) :
    Option Nat :=
  match firstIdx CloseEvent.closeTargetReply tr,
      firstIdx (CloseEvent.cdp (.detachedFromTarget contextId)) tr with
  | some a, some b => some (max a b)
  | _, _ => none

/-- `BrowsingContextProcessor.process_browsingContext_close`: fails when the
context is unknown (`getContext`, modelled from the spec as failing with
NoSuchFrame) or not top-level (the source's message string); otherwise
resolves with the empty result once `closeResolveIndex` is reached. -/
def process_browsingContext_close (st : ProcState) (contextId : String)
    (tr : List CloseEvent) : Except String (Option Nat × Json) :=
  match st.contexts.find? (fun c => c.id == contextId) with
  | none => .error "no such frame"
  | some c =>
      if c.parentId ≠ none then
        .error "A top-level browsing context cannot be closed."
      else .ok (closeResolveIndex contextId tr, .obj [("result", .obj [])])

/-- State transition of one pending-close event (the CDP reply itself does
not change processor state). -/
def closeStep (selfTargetId : String) (s : ProcState) (e : CloseEvent) :
    ProcState :=
  match e with
  | .closeTargetReply => s
  | .cdp ev => stepEvent selfTargetId s ev

/-- Processing the observed events while close is pending. -/
def applyCloseEvents (selfTargetId : String) (st : ProcState)
    (tr : List CloseEvent) : ProcState :=
  tr.foldl (closeStep selfTargetId) st

theorem firstIdx_getElem {α : Type} [DecidableEq α] (x : α) (l : List α)
    (n : Nat) (h : firstIdx x l = some n) : l[n]? = some x := by
  induction l generalizing n with
  | nil => simp [firstIdx] at h
  | cons y ys ih =>
      rw [firstIdx] at h
      by_cases hy : y = x
      · rw [if_pos hy] at h
        cases h
        simp [hy]
      · rw [if_neg hy] at h
        cases hm : firstIdx x ys with
        | none => rw [hm] at h; cases h
        | some m =>
            rw [hm] at h
            injection h with h
            subst h
            simpa using ih _ hm

theorem not_mem_after_detach (selfTargetId contextId : String) :
    ∀ (tr : List CloseEvent) (st : ProcState),
      (CloseEvent.cdp (.detachedFromTarget contextId) ∈ tr ∨
        contextId ∉ contextIds st.contexts) →
      (∀ ev, CloseEvent.cdp ev ∈ tr →
        eventCreatesId ev ≠ some contextId) →
      contextId ∉
        contextIds (applyCloseEvents selfTargetId st tr).contexts := by
  intro tr
  induction tr with
  | nil =>
      intro st h _
      rcases h with h | h
      · cases h
      · simpa [applyCloseEvents] using h
  | cons e rest ih =>
      intro st h hnc
      have hnc' : ∀ ev, CloseEvent.cdp ev ∈ rest →
          eventCreatesId ev ≠ some contextId :=
        fun ev hm => hnc ev (List.mem_cons_of_mem _ hm)
      by_cases he : e = CloseEvent.cdp (.detachedFromTarget contextId)
      · subst he
        have hafter : contextId ∉ contextIds
            (closeStep selfTargetId st
              (CloseEvent.cdp (.detachedFromTarget contextId))).contexts := by
          rw [closeStep, stepEvent]
          exact detach_removes st contextId
        have := ih (closeStep selfTargetId st
          (CloseEvent.cdp (.detachedFromTarget contextId))) (Or.inr hafter) hnc'
        simpa [applyCloseEvents] using this
      · rcases h with hmem | hnot
        · have hmem' : CloseEvent.cdp (.detachedFromTarget contextId) ∈ rest := by
            rcases List.mem_cons.mp hmem with h1 | h1
            · exact absurd h1.symm he
            · exact h1
          have := ih (closeStep selfTargetId st e) (Or.inl hmem') hnc'
          simpa [applyCloseEvents] using this
        · have hstep : contextId ∉
              contextIds (closeStep selfTargetId st e).contexts := by
            cases e with
            | closeTargetReply => exact hnot
            | cdp ev =>
                rw [closeStep]
                exact stepEvent_not_mem selfTargetId st ev contextId hnot
                  (hnc ev (List.mem_cons_self _ _))
          have := ih (closeStep selfTargetId st e) (Or.inr hstep) hnc'
          simpa [applyCloseEvents] using this

/-- C8: `browsingContext.close` on a stored top-level context resolves with
the empty result exactly when both the `Target.closeTarget` reply and the
`Target.detachedFromTarget` event for that context have been observed, in
either order, and by the resolution point the context has been removed from
`BrowsingContextStorage`, so `browsingContext.getTree` no longer lists it
(assuming the browser does not reuse the closed target's id within the
observed tr). -/
theorem c8_close_resolves_after_both (selfTargetId : String) (st : ProcState)
    (contextId : String) (c : BContext) (tr : List CloseEvent) (t : Nat)
    (hfind : st.contexts.find? (fun c => c.id == contextId) = some c)
    (htop : c.parentId = none)
    (hres : closeResolveIndex contextId tr = some t)
    (hnc : ∀ ev, CloseEvent.cdp ev ∈ tr →
      eventCreatesId ev ≠ some contextId) :
    process_browsingContext_close st contextId tr =
      .ok (some t, .obj [("result", .obj [])]) ∧
    (∃ i, i ≤ t ∧ tr[i]? = some CloseEvent.closeTargetReply) ∧
    (∃ j, j ≤ t ∧
      tr[j]? = some (CloseEvent.cdp (.detachedFromTarget contextId))) ∧
    contextId ∉ contextIds
      (applyCloseEvents selfTargetId st (tr.take (t + 1))).contexts ∧
    contextId ∉ getTreeListedIds
      (applyCloseEvents selfTargetId st (tr.take (t + 1))).contexts := by
  rw [closeResolveIndex] at hres
  cases ha : firstIdx CloseEvent.closeTargetReply tr with
  | none => rw [ha] at hres; cases hres
  | some a =>
      cases hb : firstIdx (CloseEvent.cdp (.detachedFromTarget contextId))
          tr with
      | none => rw [ha, hb] at hres; cases hres
      | some b =>
          rw [ha, hb] at hres
          injection hres with hres
          have hdetmem : CloseEvent.cdp (.detachedFromTarget contextId) ∈
              tr.take (t + 1) := by
            have hx : (tr.take (t + 1))[b]? =
                some (CloseEvent.cdp (.detachedFromTarget contextId)) := by
              rw [List.getElem?_take, if_pos (by omega)]
              exact firstIdx_getElem _ _ _ hb
            exact List.getElem?_mem hx
          have h4 : contextId ∉ contextIds
              (applyCloseEvents selfTargetId st (tr.take (t + 1))).contexts :=
            not_mem_after_detach selfTargetId contextId _ st (Or.inl hdetmem)
              (fun ev hm => hnc ev (List.take_subset _ _ hm))
          refine ⟨?_, ⟨a, by omega, firstIdx_getElem _ _ _ ha⟩,
            ⟨b, by omega, firstIdx_getElem _ _ _ hb⟩, h4, ?_⟩
          · rw [process_browsingContext_close, hfind]
            dsimp only
            rw [if_neg (by simp [htop]), closeResolveIndex, ha, hb]
            dsimp only
            rw [hres]
          · intro hm
            obtain ⟨c', hc', rfl⟩ := mem_getTreeListedIds _ _ hm
            exact h4 (List.mem_map.mpr ⟨c', hc', rfl⟩)

/-- Witness for C8: reply first, then the detach event. -/
theorem c8_witness :
    process_browsingContext_close ⟨[⟨"C1", none, 0⟩], [], 1⟩ "C1"
        [CloseEvent.closeTargetReply,
         CloseEvent.cdp (.detachedFromTarget "C1")] =
      .ok (some 1, .obj [("result", .obj [])]) ∧
    (∃ i, i ≤ 1 ∧
      ([CloseEvent.closeTargetReply,
        CloseEvent.cdp (.detachedFromTarget "C1")])[i]? =
        some CloseEvent.closeTargetReply) ∧
    (∃ j, j ≤ 1 ∧
      ([CloseEvent.closeTargetReply,
        CloseEvent.cdp (.detachedFromTarget "C1")])[j]? =
        some (CloseEvent.cdp (.detachedFromTarget "C1"))) ∧
    "C1" ∉ contextIds (applyCloseEvents "SELF" ⟨[⟨"C1", none, 0⟩], [], 1⟩
      (([CloseEvent.closeTargetReply,
         CloseEvent.cdp (.detachedFromTarget "C1")]).take 2)).contexts ∧
    "C1" ∉ getTreeListedIds (applyCloseEvents "SELF" ⟨[⟨"C1", none, 0⟩], [], 1⟩
      (([CloseEvent.closeTargetReply,
         CloseEvent.cdp (.detachedFromTarget "C1")]).take 2)).contexts :=
  c8_close_resolves_after_both "SELF" ⟨[⟨"C1", none, 0⟩], [], 1⟩ "C1"
    ⟨"C1", none, 0⟩
    [CloseEvent.closeTargetReply, CloseEvent.cdp (.detachedFromTarget "C1")]
    1 rfl rfl rfl
    (by simp [eventCreatesId])
